import Mathlib

/-!
Verification of the m4s cache reconciliation & reassembly tool
(src/common/util.go, src/main.go) against its specification.

The Go code is shallowly embedded as follows:
* paths and file contents are lists of characters (`Path`, `Bytes`);
  Go strings are UTF-8, and every substring pattern used by the program
  is either pure ASCII or a whole code point, so a code-point-level model
  is faithful (UTF-8 is self-synchronizing: a byte-level match of an
  encoded code point can only occur at a code-point boundary);
* the file system is an association list from paths to contents (`FS`);
  `os.Create` truncates/overwrites, modelled by `FS.setFile`;
* fallible operations return `Except`/`Option`;
* the external JSON decoder (`encoding/json`, `go-simplejson`) is an
  explicit parameter (`Bytes → Option PlayUrl`), and the result of
  reading + parsing a session's videoInfo manifest is an
  `Option VideoInfo` field of the session model;
* the path separator is modelled as `/`; `filepath.Dir`/`filepath.Join`
  are modelled for the relative, separator-normalized paths the program
  builds.

The file is organized as definitions first, then theorems.
-/

namespace M4s

abbrev Path := List Char
abbrev Bytes := List Char

/-- The in-memory file system: an association list from paths to byte
contents.  Lookup takes the first matching entry. -/
abbrev FS := List (Path × Bytes)

/-- Model of `os.Open`/`os.ReadFile`: look a path up in the file system. -/
def FS.lookup (fs : FS) (p : Path) : Option Bytes :=
  match fs with
  | [] => none
  | (q, b) :: rest => if q = p then some b else FS.lookup rest p

/-- Model of `os.Create` + write: create the file at `p` with content `b`,
truncating/overwriting any existing file at that path. -/
def FS.setFile (fs : FS) (p : Path) (b : Bytes) : FS :=
  (p, b) :: fs.filter (fun e => decide (e.1 ≠ p))

/-! ## String helpers used by the source (`strings`, `path/filepath`) -/

def replaceAllAux (pat rep : List Char) : List Char → Nat → List Char
  | [], _ => []
  | _ :: rest, skip + 1 => replaceAllAux pat rep rest skip
  | c :: rest, 0 =>
    if !pat.isEmpty && pat.isPrefixOf (c :: rest) then
      rep ++ replaceAllAux pat rep rest (pat.length - 1)
    else
      c :: replaceAllAux pat rep rest 0

/-- Model of `strings.ReplaceAll(s, pat, rep)`: replace every non-overlapping
occurrence of `pat` in `s` by `rep`, scanning left to right.  (Go's
behaviour for an empty pattern—interleaving `rep` between characters—is
never exercised by the program; here an empty pattern leaves `s`
unchanged.) -/
def replaceAll (pat rep s : List Char) : List Char :=
  replaceAllAux pat rep s 0

/-- A single-character `strings.ReplaceAll` acts as this character map. -/
def replChar (a b c : Char) : Char := if c = a then b else c

/-- Model of `strings.Contains(s, sub)`: `sub` occurs as a contiguous substring
of `s`. -/
def containsSub (s sub : List Char) : Bool := decide (sub <:+: s)

/-- Model of `filepath.Ext(name)`: the suffix of `name` beginning at its last dot
(including the dot); empty when there is no dot.  Modelled for base names
(the program applies it to `info.Name()`, a separator-free base name). -/
def Ext : Path → Path
  | [] => []
  | c :: rest =>
    if rest.contains '.' then Ext rest
    else if c = '.' then c :: rest
    else []

/-- Model of `filepath.Dir(p)`: the portion of `p` before its last `/`, modelled
for the relative separator-normalized paths the program builds (Go
additionally `Clean`s the result; `.` is returned for separator-free
paths). -/
def Dir (p : Path) : Path :=
  let d := ((p.reverse.dropWhile (fun c => c ≠ '/')).drop 1).reverse
  if d = [] then ['.'] else d

/-- Model of `filepath.Join(a, b)` for a non-empty relative `a` and a base name
`b` (Go also `Clean`s the result). -/
def Join (a b : Path) : Path := a ++ '/' :: b

/-! ## File-name constants

The `conver` package of this repository is not under src/; its constants
are modelled from the spec. -/

/-- Modelled from the spec: `conver.M4sSuffix`, the reserved fragment
extension (spec §3 "identified by a reserved file extension", scenario 1
`...m4s`). -/
def M4sSuffix : Path := ".m4s".toList

/-- Modelled from the spec: `conver.VideoSuffix`, the repaired video
elementary-stream extension (spec §2 "produces repaired `.video`/`.audio`
files in place"). -/
def VideoSuffix : Path := ".video".toList

/-- Modelled from the spec: `conver.AudioSuffix`, the repaired audio
elementary-stream extension (spec §2). -/
def AudioSuffix : Path := ".audio".toList

/-- Modelled from the spec: `conver.PlayUrlSuffix`, the per-session
`.playurl` JSON manifest file name (spec §6 "PlayManifest file"). -/
def PlayUrlSuffix : Path := ".playurl".toList

/-- Modelled from the spec: `conver.Mp4Suffix`, the merged-container
extension (spec scenario 1 `<title>.mp4`). -/
def Mp4Suffix : Path := ".mp4".toList

/-- The 9-byte sentinel header `"000000000"` (util.go line 231). -/
def sentinel : Bytes := "000000000".toList

/-! ## Header Repair Unit: `copyFile` and `M4sToAV` (util.go 203-241) -/

/-- Model of `copyFile(src, dst, fn)` (util.go 203-224): open `src` (failure is
returned), run the callback `fn` on the open source file—its only
observable effect is the resulting read offset—then `os.Create(dst)`
(failure is returned; in this model creation fails exactly for the empty
path, the failure the program actually exercises), and `io.Copy` the
bytes from the current offset onward into the destination. -/
def copyFile (fs : FS) (src dst : Path) (fn : Bytes → Nat) : Except String FS :=
  match fs.lookup src with
  | none => .error ("open src failed")
  | some content =>
      if dst = [] then .error ("create dst failed")
      else .ok (fs.setFile dst (content.drop (fn content)))

/-- The callback `M4sToAV` passes to `copyFile` (util.go 227-240):
`io.ReadAtLeast` consumes the first `min 9 len` bytes; if they are not
the sentinel it logs and returns early (leaving the offset where the
read left it); otherwise it seeks to offset 9.  (`string(data)` compares
all 9 buffer bytes, so a source shorter than 9 bytes—whose buffer is
NUL-padded—never matches the sentinel; `content.take 9 = sentinel`
captures exactly the match condition.) -/
def m4sHeaderFn (content : Bytes) : Nat :=
  if content.take 9 = sentinel then 9 else min 9 content.length

/-- Model of `M4sToAV(src, dst)` (util.go 226-241). -/
def M4sToAV (fs : FS) (src dst : Path) : Except String FS :=
  copyFile fs src dst m4sHeaderFn

/-! ## PlayManifest and `GetVAId` (util.go 446-461) -/

/-- One entry of `data.dash.video` / `data.dash.audio`; modelled from the
spec (§6: nested fields identifying the selected stream's numeric
identifier) since the `conver.PlayUrl` declaration is not under src/. -/
structure DashStream where
  id : Int
deriving DecidableEq

/-- Modelled from the spec: the `data.dash` object of a `.playurl`
manifest. -/
structure DashInfo where
  video : List DashStream
  audio : List DashStream
deriving DecidableEq

/-- Modelled from the spec: the `data` object of a `.playurl` manifest. -/
structure PlayData where
  dash : DashInfo
deriving DecidableEq

/-- Modelled from the spec: the parsed `.playurl` JSON manifest
(`conver.PlayUrl`). -/
structure PlayUrl where
  data : PlayData
deriving DecidableEq

/-- Model of `strconv.Itoa` on a stream identifier. -/
def itoa (i : Int) : Path := (toString i).toList

/-- The observable outcome of `GetVAId`: either a normal return of the
`(videoID, audioID)` pair—`("", "")` after a logged read or parse
failure—or a runtime panic (index out of range on element 0 of an empty
slice). -/
inductive VAIdOutcome where
  | ret (videoId audioId : Path)
  | panic
deriving DecidableEq

/-- Model of `GetVAId(patch)` (util.go 447-461): read
`filepath.Join(filepath.Dir(patch), conver.PlayUrlSuffix)`; on a read or
JSON-parse failure log and return the zero values `("", "")`; otherwise
return `Itoa(p.Data.Dash.Video[0].ID), Itoa(p.Data.Dash.Audio[0].ID)`,
which panics when either slice is empty.  `parsePU` is the external
`encoding/json` decoder. -/
def GetVAId (parsePU : Bytes → Option PlayUrl) (fs : FS) (patch : Path) :
    VAIdOutcome :=
  match fs.lookup (Join (Dir patch) PlayUrlSuffix) with
  | none => .ret [] []
  | some content =>
      match parsePU content with
      | none => .ret [] []
      | some p =>
          match p.data.dash.video, p.data.dash.audio with
          | v :: _, a :: _ => .ret (itoa v.id) (itoa a.id)
          | _, _ => .panic

/-! ## Fragment Classifier & Session Walker:
`FindM4sFiles` (util.go 109-130) driven by `filepath.WalkDir`
(main.go 31-34) -/

/-- The destination-path computation of `FindM4sFiles` (util.go
114-121): when both identifiers are non-empty, an audio fragment (whose
base name contains the audio identifier) gets every `.m4s` replaced by
the audio suffix, any other fragment gets every `.m4s` replaced by the
video suffix; otherwise `dst` keeps its zero value `""`. -/
def classifyDst (name videoId audioId src : Path) : Path :=
  if videoId ≠ [] ∧ audioId ≠ [] then
    if containsSub name audioId then replaceAll M4sSuffix AudioSuffix src
    else replaceAll M4sSuffix VideoSuffix src
  else []

/-- One callback invocation delivered by `filepath.WalkDir`: the full
path `src`, the entry's base name `info.Name()`, and whether the walk
passed a non-nil error for this entry (a directory-listing failure). -/
structure WalkEntry where
  path : Path
  name : Path
  listErr : Bool
deriving DecidableEq

/-- How a run of the walk ends early. -/
inductive RunErr where
  /-- The callback returned the walk-supplied listing error
  (util.go 110-112). -/
  | walkErr
  /-- The callback returned the error of `M4sToAV` after showing a
  message box (util.go 123-126). -/
  | convErr (msg : String)
  /-- A runtime panic (unwinds through the walk to the top-level
  `recover`). -/
  | panic
deriving DecidableEq

/-- Model of `Config.FindM4sFiles` (util.go 109-130), the `filepath.WalkDir`
callback: propagate a listing error; for an entry whose base-name
extension is `.m4s`, classify it via `GetVAId` and convert it via
`M4sToAV`, returning (and thereby aborting the walk with) any conversion
error; all other entries are left untouched. -/
def FindM4sFiles (parsePU : Bytes → Option PlayUrl) (fs : FS)
    (e : WalkEntry) : Except RunErr FS :=
  if e.listErr then .error .walkErr
  else if Ext e.name = M4sSuffix then
    match GetVAId parsePU fs e.path with
    | .panic => .error .panic
    | .ret videoId audioId =>
        match M4sToAV fs e.path (classifyDst e.name videoId audioId e.path) with
        | .error m => .error (.convErr m)
        | .ok fs' => .ok fs'
  else .ok fs

/-- Model of `filepath.WalkDir(c.CachePath, c.FindM4sFiles)` (main.go 31): the
walk feeds each entry, in traversal order, to the callback and aborts
with the callback's error as soon as one is returned. -/
def walkM4s (parsePU : Bytes → Option PlayUrl) (fs : FS) :
    List WalkEntry → Except RunErr FS
  | [] => .ok fs
  | e :: rest =>
      match FindM4sFiles parsePU fs e with
      | .error r => .error r
      | .ok fs' => walkM4s parsePU fs' rest

/-! ## Completion & Grouping Resolver: `GetAudioAndVideo`
(util.go 165-201) -/

/-- One callback invocation delivered by `filepath.Walk` inside
`GetAudioAndVideo`: the full path, whether the entry is a directory, and
whether the walk passed a non-nil error.  (The danmaku download and
xml-to-ass conversion performed for directory entries are external
collaborators—spec §1—and do not touch the video/audio result.) -/
structure FileEntry where
  path : Path
  isDir : Bool
  err : Bool
deriving DecidableEq

/-- The body of `GetAudioAndVideo`'s walk (util.go 170-194) threading
the `video`/`audio` accumulator: a walk error aborts; a file whose path
contains the video (audio) suffix overwrites the video (audio)
accumulator; directories leave the accumulator unchanged. -/
def gavLoop : Path × Path → List FileEntry → Option (Path × Path)
  | acc, [] => some acc
  | (v, a), e :: rest =>
      if e.err then none
      else if !e.isDir then
        gavLoop
          ((if containsSub e.path VideoSuffix then e.path else v),
           (if containsSub e.path AudioSuffix then e.path else a))
          rest
      else gavLoop (v, a) rest

/-- Model of `Config.GetAudioAndVideo(cachePath)` (util.go 165-201): walk the
session directory accumulating the video and audio paths; `none` models
the `("", "", err)` return after a walk error. -/
def GetAudioAndVideo (entries : List FileEntry) : Option (Path × Path) :=
  gavLoop ([], []) entries

/-- Characterization used by the amended claim C3: the path of the LAST
non-directory entry containing `suffix`, or `""` when there is none. -/
def lastMatch (suffix : Path) (entries : List FileEntry) : Path :=
  entries.foldl
    (fun acc e => if !e.isDir && containsSub e.path suffix then e.path else acc)
    []

/-! ## Filename sanitizer `Filter` (util.go 329-344) -/

/-- The white-space class trimmed by Go's `strings.TrimSpace`
(`unicode.IsSpace`: the Unicode White_Space property). -/
def isGoSpace (c : Char) : Bool :=
  c.toNat = 0x09 || c.toNat = 0x0A || c.toNat = 0x0B || c.toNat = 0x0C ||
  c.toNat = 0x0D || c.toNat = 0x20 || c.toNat = 0x85 || c.toNat = 0xA0 ||
  c.toNat = 0x1680 || (0x2000 ≤ c.toNat && c.toNat ≤ 0x200A) ||
  c.toNat = 0x2028 || c.toNat = 0x2029 || c.toNat = 0x202F ||
  c.toNat = 0x205F || c.toNat = 0x3000

/-- Model of `strings.TrimSpace`: drop white space from both ends. -/
def trimSpace (s : List Char) : List Char :=
  (s.dropWhile isGoSpace).rdropWhile isGoSpace

/-- Model of `Filter(name, err)` (util.go 329-344): the filename sanitizer—eleven
`strings.ReplaceAll` substitutions followed by `strings.TrimSpace`.
(The Go function also receives an error value that it ignores entirely;
it is omitted here.) -/
def Filter (name : Path) : Path :=
  let n := replaceAll ['<'] ['《'] name
  let n := replaceAll ['>'] ['》'] n
  let n := replaceAll ['\\'] ['#'] n
  let n := replaceAll ['"'] ['\''] n
  let n := replaceAll ['/'] ['_'] n
  let n := replaceAll ['|'] ['_'] n
  let n := replaceAll ['?'] ['_'] n
  let n := replaceAll ['*'] ['_'] n
  let n := replaceAll ['【'] ['['] n
  let n := replaceAll ['】'] [']'] n
  let n := replaceAll [':'] ['：'] n
  trimSpace n

/-- The eleven forbidden characters of claim C8. -/
def forbiddenChars : List Char :=
  ['<', '>', '\\', '"', '/', '|', '?', '*', '【', '】', ':']

/-- The combined character substitution performed by `Filter`'s eleven
`ReplaceAll` lines, in source order. -/
def filterChar (c : Char) : Char :=
  replChar ':' '：' (replChar '】' ']' (replChar '【' '[' (replChar '*' '_'
    (replChar '?' '_' (replChar '|' '_' (replChar '/' '_' (replChar '"' '\''
      (replChar '\\' '#' (replChar '>' '》' (replChar '<' '《' c))))))))))

/-! ## Reassembly Orchestrator: the per-session loop of `main`
(main.go 54-101) and `Composition` (util.go 64-107) -/

/-- The four text fields read from a session's videoInfo manifest
(main.go 74-77). -/
structure VideoInfo where
  groupTitle : Path
  title : Path
  uname : Path
  status : Path
deriving DecidableEq

/-- One session directory as consumed by the loop of `main`:
its path, the walk events `GetAudioAndVideo` sees beneath it, the result
of reading and JSON-parsing its videoInfo manifest (`none` models a
missing or unparsable manifest, main.go 60-73), and whether the ffmpeg
subprocess `cmd.Wait()` for this session would report an error. -/
structure Session where
  dir : Path
  entries : List FileEntry
  manifest : Option VideoInfo
  waitErr : Bool
deriving DecidableEq

/-- Model of `Config.Composition` (util.go 64-107): after `cmd.Start()` succeeds,
`cmd.Wait()`'s error is consulted only to decide whether to print the
success log (util.go 102-105); every such run then reaches the final
`return nil` (util.go 106), so the returned error is `none` regardless
of the wait status. -/
def Composition (_waitErr : Bool) : Option String :=
  none

/-- The run summary accumulated by `main` (main.go 51-53), plus the
trace of muxer invocations (each `c.Composition(video, audio,
outputFile)` call with its arguments) which the claims quantify over. -/
structure RunState where
  skipped : List Path
  outputs : List Path
  invocations : List (Path × Path × Path)
deriving DecidableEq

/-- One iteration of the session loop of `main` (main.go 54-101):
resolve the repaired pair (a walk error logs and continues), read the
manifest (failure logs and continues), sanitize the four fields with
`Filter`, skip non-completed sessions, compute
`<parent>/output/<groupTitle>-<uname>/<title>.mp4`, invoke the muxer,
and record the output path unless `Composition` returned an error (it
never does).  Creation of the output directories (main.go 84-94) has no
bearing on any claim and is not modelled. -/
def processSession (st : RunState) (s : Session) : RunState :=
  match GetAudioAndVideo s.entries with
  | none => st
  | some (video, audio) =>
      match s.manifest with
      | none => st
      | some m =>
          let groupTitle := Filter m.groupTitle
          let title := Filter m.title
          let uname := Filter m.uname
          let status := Filter m.status
          if status ≠ "completed".toList then
            { st with skipped := st.skipped ++ [s.dir] }
          else
            let outputDir := Join (Dir s.dir) "output".toList
            let groupDir := Join outputDir (groupTitle ++ '-' :: uname)
            let outputFile := Join groupDir (title ++ Mp4Suffix)
            let st' := { st with
              invocations := st.invocations ++ [(video, audio, outputFile)] }
            match Composition s.waitErr with
            | some _ => st'
            | none => { st' with outputs := st'.outputs ++ [outputFile] }

/-- The whole session loop (main.go 54-101) over the discovered session
directories, in order. -/
def runSessions (sessions : List Session) : RunState :=
  sessions.foldl processSession ⟨[], [], []⟩

end M4s

namespace M4s

/-! # Theorems -/

/-! ## File-system lemmas -/

theorem FS.lookup_setFile_self (fs : FS) (p : Path) (b : Bytes) :
    (fs.setFile p b).lookup p = some b := by
  simp [FS.setFile, FS.lookup]

theorem FS.lookup_filter_ne (fs : FS) (p q : Path) (h : q ≠ p) :
    FS.lookup (fs.filter (fun e => decide (e.1 ≠ p))) q = fs.lookup q := by
  induction fs with
  | nil => rfl
  | cons e rest ih =>
      obtain ⟨k, v⟩ := e
      rw [List.filter_cons]
      by_cases he : k = p
      · have hd : (decide ((k, v).1 ≠ p)) = false := decide_eq_false (by simp [he])
        have h2 : ¬ k = q := fun hq => h (hq.symm.trans he)
        rw [hd]
        rw [if_neg (by simp), ih, FS.lookup, if_neg h2]
      · have hd : (decide ((k, v).1 ≠ p)) = true := decide_eq_true he
        rw [hd, if_pos rfl, FS.lookup, FS.lookup, ih]

theorem FS.lookup_setFile_ne (fs : FS) (p q : Path) (b : Bytes) (h : q ≠ p) :
    (fs.setFile p b).lookup q = fs.lookup q := by
  rw [FS.setFile, FS.lookup, if_neg (fun hpq : p = q => h hpq.symm)]
  exact FS.lookup_filter_ne fs p q h

theorem FS.setFile_setFile (fs : FS) (p : Path) (b b' : Bytes) :
    (fs.setFile p b).setFile p b' = fs.setFile p b' := by
  simp [FS.setFile, List.filter_filter]

/-! ## `replaceAll` lemmas -/

theorem replaceAllAux_skip (pat rep : List Char) (s : List Char) (k : Nat) :
    replaceAllAux pat rep s k = replaceAll pat rep (s.drop k) := by
  induction s generalizing k with
  | nil => cases k <;> rfl
  | cons c rest ih =>
      cases k with
      | zero => rfl
      | succ k => rw [replaceAllAux, List.drop_succ_cons, ih]

/-- The one-step unfolding of `replaceAll` on a non-empty string. -/
theorem replaceAll_cons (pat rep : List Char) (c : Char) (rest : List Char) :
    replaceAll pat rep (c :: rest) =
      if !pat.isEmpty && pat.isPrefixOf (c :: rest) then
        rep ++ replaceAll pat rep (rest.drop (pat.length - 1))
      else
        c :: replaceAll pat rep rest := by
  rw [replaceAll, replaceAllAux]
  by_cases h : (!pat.isEmpty && pat.isPrefixOf (c :: rest)) = true
  · rw [if_pos h, if_pos h, replaceAllAux_skip]
  · rw [if_neg h, if_neg h, replaceAll]

theorem replaceAll_singleton (a b : Char) (s : List Char) :
    replaceAll [a] [b] s = s.map (replChar a b) := by
  induction s with
  | nil => rfl
  | cons c rest ih =>
      rw [replaceAll_cons]
      by_cases h : c = a
      · subst h
        simp [List.isPrefixOf, replChar, ih]
      · have hb : ([a].isPrefixOf (c :: rest)) = false := by
          simp only [List.isPrefixOf, List.isPrefixOf_nil_left, Bool.and_true]
          exact beq_false_of_ne (fun ha : a = c => h ha.symm)
        simp [hb, replChar, h, ih]

/-! ## Claim C6 -/

/-- Claim C6: for every fragment whose first 9 bytes equal `"000000000"`,
`M4sToAV` produces a destination file whose bytes equal the source's
bytes from offset 9 onward and whose length equals `sourceLength - 9`,
truncating/overwriting any existing file at the destination path, and
re-running produces the same output. -/
theorem m4sToAV_sentinel_strips_header (fs : FS) (src dst : Path)
    (content : Bytes) (hsrc : fs.lookup src = some content)
    (hsent : content.take 9 = sentinel) (hdst : dst ≠ []) (hne : src ≠ dst) :
    M4sToAV fs src dst = .ok (fs.setFile dst (content.drop 9)) ∧
    (fs.setFile dst (content.drop 9)).lookup dst = some (content.drop 9) ∧
    (content.drop 9).length = content.length - 9 ∧
    M4sToAV (fs.setFile dst (content.drop 9)) src dst =
      .ok (fs.setFile dst (content.drop 9)) := by
  have hfn : m4sHeaderFn content = 9 := by rw [m4sHeaderFn, if_pos hsent]
  refine ⟨?_, FS.lookup_setFile_self fs dst _, by simp, ?_⟩
  · simp only [M4sToAV, copyFile, hsrc, hfn, if_neg hdst]
  · have hsrc' : (fs.setFile dst (content.drop 9)).lookup src = some content :=
      (FS.lookup_setFile_ne fs dst src _ hne).trans hsrc
    simp only [M4sToAV, copyFile, hsrc', hfn, if_neg hdst,
      FS.setFile_setFile]

/-- Closed instance of `m4sToAV_sentinel_strips_header` on a concrete
three-payload-byte fragment. -/
theorem m4sToAV_sentinel_strips_header_witness :
    M4sToAV [("a.m4s".toList, "000000000XYZ".toList)] "a.m4s".toList
        "a.video".toList
      = .ok (FS.setFile [("a.m4s".toList, "000000000XYZ".toList)]
          "a.video".toList ("000000000XYZ".toList.drop 9)) ∧
    (FS.setFile [("a.m4s".toList, "000000000XYZ".toList)] "a.video".toList
        ("000000000XYZ".toList.drop 9)).lookup ("a.video".toList)
      = some ("000000000XYZ".toList.drop 9) ∧
    ("000000000XYZ".toList.drop 9).length = "000000000XYZ".toList.length - 9 ∧
    M4sToAV (FS.setFile [("a.m4s".toList, "000000000XYZ".toList)]
        "a.video".toList ("000000000XYZ".toList.drop 9)) "a.m4s".toList
        "a.video".toList
      = .ok (FS.setFile [("a.m4s".toList, "000000000XYZ".toList)]
          "a.video".toList ("000000000XYZ".toList.drop 9)) :=
  m4sToAV_sentinel_strips_header _ _ _ _ rfl (by decide) (by decide) (by decide)

/-! ## Claim C1 -/

/-- Claim C1 (code bug): for the fragment `b.m4s` whose first 9 bytes are
`"111111111"` (not the sentinel), `M4sToAV` nevertheless CREATES the
destination file and copies the bytes after the 9 consumed header bytes
into it, returning without error — the callback's early `return` only
exits the callback, and `copyFile` then proceeds to `os.Create` and
`io.Copy` from the current offset.  This contradicts the claim that no
destination write occurs. -/
theorem m4sToAV_bad_sentinel_still_writes :
    M4sToAV [("b.m4s".toList, "111111111ABC".toList)] ("b.m4s".toList)
        ("b.video".toList)
      = .ok (FS.setFile [("b.m4s".toList, "111111111ABC".toList)]
          ("b.video".toList) ("ABC".toList)) ∧
    (FS.setFile [("b.m4s".toList, "111111111ABC".toList)] "b.video".toList
        ("ABC".toList)).lookup ("b.video".toList) = some ("ABC".toList) :=
  ⟨rfl, rfl⟩

/-! ## Claim C10 -/

/-- Claim C10: `GetVAId` guards only against file-read and JSON-parse failures
(returning `("", "")` in both cases); on a syntactically valid
`.playurl` manifest whose `data.dash.video` or `data.dash.audio` array
is empty it panics with an index-out-of-range on element 0 instead of
returning an error. -/
theorem getVAId_empty_array_panics :
    GetVAId (fun _ => some ⟨⟨⟨[⟨100⟩], []⟩⟩⟩)
        [(Join ("s1".toList) PlayUrlSuffix, "json".toList)] "s1/f.m4s".toList
      = .panic ∧
    GetVAId (fun _ => some ⟨⟨⟨[], [⟨200⟩]⟩⟩⟩)
        [(Join ("s1".toList) PlayUrlSuffix, "json".toList)] "s1/f.m4s".toList
      = .panic ∧
    GetVAId (fun _ => none)
        [(Join ("s1".toList) PlayUrlSuffix, "json".toList)] "s1/f.m4s".toList
      = .ret [] [] ∧
    GetVAId (fun _ => some ⟨⟨⟨[⟨100⟩], []⟩⟩⟩) [] "s1/f.m4s".toList
      = .ret [] [] :=
  ⟨rfl, rfl, rfl, rfl⟩

/-! ## Claim C9 -/

/-- When `pat` occurs in `stem ++ pat` only as the final `pat`,
`replaceAll` rewrites exactly that occurrence. -/
theorem replaceAll_final_occurrence (pat rep stem : List Char) (hp : pat ≠ [])
    (h : ∀ i, i < stem.length →
      pat.isPrefixOf ((stem ++ pat).drop i) = false) :
    replaceAll pat rep (stem ++ pat) = stem ++ rep := by
  induction stem with
  | nil =>
      obtain ⟨c, pr, rfl⟩ : ∃ c pr, pat = c :: pr := by
        cases pat with
        | nil => exact absurd rfl hp
        | cons c pr => exact ⟨c, pr, rfl⟩
      rw [List.nil_append, List.nil_append, replaceAll_cons,
        if_pos (by simp [ List.isPrefixOf_iff_prefix])]
      simp only [List.length_cons, Nat.add_sub_cancel, List.drop_length]
      rw [replaceAll, replaceAllAux, List.append_nil]
  | cons c stem' ih =>
      have h0 : pat.isPrefixOf (c :: (stem' ++ pat)) = false := by
        have := h 0 (by simp)
        simpa using this
      rw [List.cons_append, replaceAll_cons, if_neg (by simp [h0])]
      have h' : ∀ i, i < stem'.length →
          pat.isPrefixOf ((stem' ++ pat).drop i) = false := by
        intro i hi
        have := h (i + 1) (by simp; omega)
        simpa [List.cons_append] using this
      rw [ih h', List.cons_append]

/-- Claim C9 (counterexample): for the fragment path `a.m4s/b.m4s` (a session
directory itself named with the fragment extension), the classifier's
destination is `a.video/b.video` — the directory part is rewritten too —
not `a.m4s/b.video` as the claim requires. -/
theorem classifyDst_changes_directory_part :
    classifyDst ("b.m4s".toList) ("100".toList) ("200".toList)
        "a.m4s/b.m4s".toList = "a.video/b.video".toList ∧
    ("a.video/b.video".toList : Path) ≠ "a.m4s/b.video".toList :=
  ⟨rfl, by decide⟩

/-- Claim C9 (amended): the classifier's destination path is the fragment path
with EVERY occurrence of `.m4s` replaced by the role-specific extension;
when `.m4s` occurs (even overlapping) only as the final extension, this
is exactly the fragment path with its extension replaced and the
remainder — directories and basename — unchanged. -/
theorem classifyDst_single_occurrence (name videoId audioId stem : Path)
    (hv : videoId ≠ []) (ha : audioId ≠ [])
    (h : ∀ i, i < stem.length →
      M4sSuffix.isPrefixOf ((stem ++ M4sSuffix).drop i) = false) :
    classifyDst name videoId audioId (stem ++ M4sSuffix)
      = stem ++ (if containsSub name audioId then AudioSuffix
                 else VideoSuffix) := by
  rw [classifyDst, if_pos ⟨hv, ha⟩]
  by_cases hc : containsSub name audioId = true
  · rw [if_pos hc, if_pos hc,
      replaceAll_final_occurrence _ _ _ (by decide) h]
  · rw [if_neg hc, if_neg hc,
      replaceAll_final_occurrence _ _ _ (by decide) h]

/-- Closed instance of `classifyDst_single_occurrence`: a path whose
only `.m4s` is the final extension keeps its directory and basename. -/
theorem classifyDst_single_occurrence_witness :
    classifyDst ("b.m4s".toList) ("100".toList) ("200".toList)
        ("dir/b".toList ++ M4sSuffix)
      = "dir/b".toList ++ (if containsSub ("b.m4s".toList) ("200".toList)
          then AudioSuffix else VideoSuffix) :=
  classifyDst_single_occurrence _ _ _ _ (by decide) (by decide) (by decide)

/-! ## Claim C2 -/

/-- Claim C2 (counterexample): a cache tree whose first fragment fails to
classify (its session has no `.playurl`, so the destination path stays
empty and its creation fails) makes the whole walk return that error —
the second fragment is never processed — even though no directory
listing error occurred.  The claim that only listing errors abort the
walk is false. -/
theorem walkM4s_fragment_failure_aborts :
    ([(⟨"c/s1/f.m4s".toList, "f.m4s".toList, false⟩ : WalkEntry),
      ⟨"c/s1/g.m4s".toList, "g.m4s".toList, false⟩].all
        (fun e => !e.listErr)) = true ∧
    walkM4s (fun _ => none)
      [("c/s1/f.m4s".toList, "000000000AB".toList),
       ("c/s1/g.m4s".toList, "000000000CD".toList)]
      [⟨"c/s1/f.m4s".toList, "f.m4s".toList, false⟩,
       ⟨"c/s1/g.m4s".toList, "g.m4s".toList, false⟩]
      = .error (.convErr ("create dst failed")) :=
  ⟨rfl, rfl⟩

/-- Claim C2 (amended): a directory-listing error aborts the entire walk and
is propagated — and so does an error from classifying/repairing a
fragment: for a `.m4s` entry whose session directory lacks a `.playurl`
manifest, classification yields empty identifiers, the destination path
keeps its zero value, its creation fails, and that error aborts the
whole walk with the remaining entries unprocessed (only a mere sentinel
mismatch is a non-fatal skip, producing no error). -/
theorem walkM4s_abort_conditions (parsePU : Bytes → Option PlayUrl)
    (fs : FS) (e : WalkEntry) (rest : List WalkEntry) (content : Bytes) :
    (e.listErr = true → walkM4s parsePU fs (e :: rest) = .error .walkErr) ∧
    (e.listErr = false → Ext e.name = M4sSuffix →
      fs.lookup e.path = some content →
      fs.lookup (Join (Dir e.path) PlayUrlSuffix) = none →
      walkM4s parsePU fs (e :: rest)
        = .error (.convErr ("create dst failed"))) := by
  constructor
  · intro h
    simp only [walkM4s, FindM4sFiles, h, if_true]
  · intro h1 h2 h3 h4
    have hdst : classifyDst e.name [] [] e.path = [] := by
      rw [classifyDst, if_neg (by simp)]
    simp only [walkM4s, FindM4sFiles, h1, Bool.false_eq_true, if_false,
      h2, if_pos, GetVAId, h4, hdst, M4sToAV, copyFile, h3, if_true]

/-- Closed instance of `walkM4s_abort_conditions`: the
missing-manifest fragment aborts a one-entry walk. -/
theorem walkM4s_abort_conditions_witness :
    walkM4s (fun _ => none) [("c/s2/f.m4s".toList, "000000000AB".toList)]
      [⟨"c/s2/f.m4s".toList, "f.m4s".toList, false⟩]
      = .error (.convErr ("create dst failed")) :=
  (walkM4s_abort_conditions (fun _ => none) _ _ [] "000000000AB".toList).2
    rfl rfl rfl rfl

/-! ## Claim C3 -/

/-- Claim C3 (counterexample): with two repaired video files in traversal
order, `GetAudioAndVideo` returns the SECOND one — the first video path
encountered does not win. -/
theorem getAudioAndVideo_first_does_not_win :
    GetAudioAndVideo
      [⟨"d/1.video".toList, false, false⟩,
       ⟨"d/2.video".toList, false, false⟩,
       ⟨"d/3.audio".toList, false, false⟩]
      = some ("d/2.video".toList, "d/3.audio".toList) ∧
    ("d/2.video".toList : Path) ≠ "d/1.video".toList :=
  ⟨rfl, by decide⟩

theorem gavLoop_eq_foldl (entries : List FileEntry) (v a : Path)
    (h : ∀ e ∈ entries, e.err = false) :
    gavLoop (v, a) entries =
      some (entries.foldl (fun acc e =>
              if !e.isDir && containsSub e.path VideoSuffix then e.path
              else acc) v,
            entries.foldl (fun acc e =>
              if !e.isDir && containsSub e.path AudioSuffix then e.path
              else acc) a) := by
  induction entries generalizing v a with
  | nil => rfl
  | cons e rest ih =>
      have he : e.err = false := h e (List.mem_cons_self e rest)
      have h' : ∀ x ∈ rest, x.err = false :=
        fun x hx => h x (List.mem_cons_of_mem e hx)
      cases hd : e.isDir with
      | false =>
          simp only [gavLoop, he, Bool.false_eq_true, if_false, hd,
            Bool.not_false, if_true, List.foldl_cons, Bool.true_and,
            ih _ _ h']
      | true =>
          simp only [gavLoop, he, Bool.false_eq_true, if_false, hd,
            Bool.not_true, List.foldl_cons, Bool.false_and, ih _ _ h']

/-- Claim C3 (amended): enumeration order matters in the opposite direction to
the claim — the LAST video path and the LAST audio path encountered in
traversal order win, each later match overwriting the earlier one; on an
error-free walk the result is exactly the pair of last matches. -/
theorem getAudioAndVideo_last_wins (entries : List FileEntry)
    (h : ∀ e ∈ entries, e.err = false) :
    GetAudioAndVideo entries =
      some (lastMatch VideoSuffix entries, lastMatch AudioSuffix entries) :=
  gavLoop_eq_foldl entries [] [] h

/-- Closed instance of `getAudioAndVideo_last_wins` on two video files
and one audio file. -/
theorem getAudioAndVideo_last_wins_witness :
    GetAudioAndVideo
      [⟨"d/x.video".toList, false, false⟩,
       ⟨"d/y.video".toList, false, false⟩,
       ⟨"d/z.audio".toList, false, false⟩]
      = some (lastMatch VideoSuffix
                [⟨"d/x.video".toList, false, false⟩,
                 ⟨"d/y.video".toList, false, false⟩,
                 ⟨"d/z.audio".toList, false, false⟩],
              lastMatch AudioSuffix
                [⟨"d/x.video".toList, false, false⟩,
                 ⟨"d/y.video".toList, false, false⟩,
                 ⟨"d/z.audio".toList, false, false⟩]) :=
  getAudioAndVideo_last_wins _ (by decide)

/-! ## Claim C5 -/

/-- Claim C5 (code bug): a session with NO repaired stream files at all (and a
completed manifest) is not skipped: `GetAudioAndVideo` returns empty
paths with a nil error, `main` checks only the error, and the muxer is
invoked with empty input paths — its output path is even recorded.  The
claim (and the log message at main.go 57) say such a session is skipped
with no muxer invocation. -/
theorem missing_streams_session_still_muxed :
    processSession ⟨[], [], []⟩
        ⟨"cache/s1".toList, [],
         some ⟨"G".toList, "T".toList, "U".toList, "completed".toList⟩,
         false⟩
      = ⟨[], ["cache/output/G-U/T.mp4".toList],
         [([], [], "cache/output/G-U/T.mp4".toList)]⟩ :=
  rfl

/-! ## Claim C4 -/

/-- Claim C4 (code bug): a session whose muxer subprocess wait reports an
error (`waitErr = true`) still contributes its output path to the run
summary: `Composition` consults `cmd.Wait()`'s error only for the
success log and returns nil on every path, so `main`'s error branch is
dead and the output is recorded regardless of the wait status. -/
theorem failed_wait_still_records_output :
    (⟨"cache/s1".toList,
      [⟨"cache/s1/v.video".toList, false, false⟩,
       ⟨"cache/s1/a.audio".toList, false, false⟩],
      some ⟨"G".toList, "T".toList, "U".toList, "completed".toList⟩,
      true⟩ : Session).waitErr = true ∧
    processSession ⟨[], [], []⟩
        ⟨"cache/s1".toList,
         [⟨"cache/s1/v.video".toList, false, false⟩,
          ⟨"cache/s1/a.audio".toList, false, false⟩],
         some ⟨"G".toList, "T".toList, "U".toList, "completed".toList⟩,
         true⟩
      = ⟨[], ["cache/output/G-U/T.mp4".toList],
         [("cache/s1/v.video".toList, "cache/s1/a.audio".toList,
           "cache/output/G-U/T.mp4".toList)]⟩ :=
  ⟨rfl, rfl⟩

/-! ## Claim C7 -/

/-- Claim C7 (counterexample): the raw manifest status `" completed"` (leading
space) is NOT the string `"completed"`, yet the session is not recorded
as skipped and IS scheduled for muxing, because `main` applies the
`Filter` sanitizer (which trims white space) to the status before the
comparison. -/
theorem status_space_completed_is_muxed :
    (" completed".toList : Path) ≠ "completed".toList ∧
    processSession ⟨[], [], []⟩
        ⟨"cache/s7".toList, [],
         some ⟨"G".toList, "T".toList, "U".toList, " completed".toList⟩,
         false⟩
      = ⟨[], ["cache/output/G-U/T.mp4".toList],
         [([], [], "cache/output/G-U/T.mp4".toList)]⟩ :=
  ⟨by decide, rfl⟩

/-- Claim C7 (amended): `main` compares the SANITIZED status — every session
whose `Filter`-sanitized manifest status is not `"completed"` is
recorded as skipped and never scheduled for muxing, regardless of
whether its repaired streams exist; this is not an error and the run
continues with the state otherwise unchanged. -/
theorem sanitized_status_not_completed_skipped (st : RunState) (s : Session)
    (m : VideoInfo) (va : Path × Path)
    (hm : s.manifest = some m)
    (hga : GetAudioAndVideo s.entries = some va)
    (hst : Filter m.status ≠ "completed".toList) :
    processSession st s = { st with skipped := st.skipped ++ [s.dir] } := by
  obtain ⟨video, audio⟩ := va
  simp only [processSession, hga, hm, if_pos hst]

/-- Closed instance of `sanitized_status_not_completed_skipped` for a
`"downloading"` status. -/
theorem sanitized_status_not_completed_skipped_witness :
    processSession ⟨[], [], []⟩
        ⟨"cache/s8".toList, [],
         some ⟨"G".toList, "T".toList, "U".toList, "downloading".toList⟩,
         false⟩
      = { (⟨[], [], []⟩ : RunState) with
          skipped := ([] : List Path) ++ ["cache/s8".toList] } :=
  sanitized_status_not_completed_skipped _ _ _ ([], []) rfl rfl (by decide)

/-! ## Claim C8 -/

theorem filterChar_chain (s : Path) :
    List.map (replChar ':' '：') (List.map (replChar '】' ']')
      (List.map (replChar '【' '[') (List.map (replChar '*' '_')
      (List.map (replChar '?' '_') (List.map (replChar '|' '_')
      (List.map (replChar '/' '_') (List.map (replChar '"' '\'')
      (List.map (replChar '\\' '#') (List.map (replChar '>' '》')
      (List.map (replChar '<' '《') s))))))))))
      = s.map filterChar := by
  induction s with
  | nil => simp only [List.map_nil]
  | cons c cs ih =>
      simp only [List.map_cons]
      rw [ih]
      show filterChar c :: cs.map filterChar = _
      rfl

/-- Theorem: `Filter`'s eleven chained single-character `ReplaceAll`s collapse to
one character map followed by the trim. -/
theorem Filter_eq_map (s : Path) : Filter s = trimSpace (s.map filterChar) := by
  simp only [Filter, replaceAll_singleton]
  rw [filterChar_chain]

theorem filterChar_eq_self (c : Char) (h : c ∉ forbiddenChars) :
    filterChar c = c := by
  simp only [forbiddenChars, List.mem_cons, List.not_mem_nil, or_false] at h
  push_neg at h
  obtain ⟨h1, h2, h3, h4, h5, h6, h7, h8, h9, h10, h11⟩ := h
  simp only [filterChar, replChar, if_neg h1, if_neg h2, if_neg h3, if_neg h4,
    if_neg h5, if_neg h6, if_neg h7, if_neg h8, if_neg h9, if_neg h10,
    if_neg h11]

theorem filterChar_not_forbidden (c : Char) :
    filterChar c ∉ forbiddenChars := by
  by_cases h : c ∈ forbiddenChars
  · simp only [forbiddenChars, List.mem_cons, List.not_mem_nil, or_false] at h
    rcases h with rfl | rfl | rfl | rfl | rfl | rfl | rfl | rfl | rfl | rfl |
      rfl <;> decide
  · rw [filterChar_eq_self c h]
    exact h

theorem filterChar_idem (c : Char) :
    filterChar (filterChar c) = filterChar c :=
  filterChar_eq_self _ (filterChar_not_forbidden c)

theorem mem_trimSpace {c : Char} {l : List Char} (h : c ∈ trimSpace l) :
    c ∈ l := by
  rw [trimSpace] at h
  have h2 := ( List.rdropWhile_prefix isGoSpace
    (l.dropWhile isGoSpace)).sublist.subset h
  exact (List.dropWhile_suffix isGoSpace).sublist.subset h2

theorem dropWhile_eq_self_of_front (p : Char → Bool) (l l' : List Char)
    (hl : l.dropWhile p = l) (hp : l' <+: l) : l'.dropWhile p = l' := by
  cases l' with
  | nil => rfl
  | cons c rest =>
      obtain ⟨t, ht⟩ := hp
      subst ht
      rw [List.cons_append] at hl
      rw [List.dropWhile_cons] at hl ⊢
      by_cases hpc : p c = true
      · rw [if_pos hpc] at hl
        have hlen := congrArg List.length hl
        have hle : ((rest ++ t).dropWhile p).length ≤ (rest ++ t).length :=
          (List.dropWhile_suffix p).sublist.length_le
        simp only [List.length_cons] at hlen
        omega
      · rw [if_neg hpc]

theorem trimSpace_idem (l : List Char) :
    trimSpace (trimSpace l) = trimSpace l := by
  have h1 : (trimSpace l).dropWhile isGoSpace = trimSpace l :=
    dropWhile_eq_self_of_front isGoSpace (l.dropWhile isGoSpace) _
      (List.dropWhile_idempotent isGoSpace l) ( List.rdropWhile_prefix _ _)
  rw [trimSpace, h1, trimSpace, List.rdropWhile_idempotent]

theorem map_eq_self_of_fixed {f : Char → Char} {l : List Char}
    (h : ∀ c ∈ l, f c = c) : l.map f = l := by
  induction l with
  | nil => rfl
  | cons c rest ih =>
      rw [List.map_cons, h c (List.mem_cons_self c rest),
        ih (fun x hx => h x (List.mem_cons_of_mem c hx))]

/-- Claim C8: the filename sanitizer `Filter` is idempotent —
`Filter (Filter s) = Filter s` for every string — and its output never
contains any of the eleven forbidden characters. -/
theorem Filter_idem_and_no_forbidden (s : Path) :
    Filter (Filter s) = Filter s ∧ ∀ c ∈ Filter s, c ∉ forbiddenChars := by
  have hmem : ∀ c ∈ Filter s, c ∉ forbiddenChars := by
    intro c hc
    rw [Filter_eq_map] at hc
    obtain ⟨c', _, rfl⟩ := List.mem_map.mp (mem_trimSpace hc)
    exact filterChar_not_forbidden c'
  refine ⟨?_, hmem⟩
  rw [Filter_eq_map s, Filter_eq_map (trimSpace (s.map filterChar))]
  rw [map_eq_self_of_fixed, trimSpace_idem]
  intro c hc
  obtain ⟨c', _, rfl⟩ := List.mem_map.mp (mem_trimSpace hc)
  exact filterChar_idem c'

/-- Closed instance of `Filter_idem_and_no_forbidden` on a string
containing forbidden characters and trailing white space. -/
theorem Filter_idem_and_no_forbidden_witness :
    Filter (Filter ("a<b>|c? ".toList)) = Filter ("a<b>|c? ".toList) ∧
    '<' ∉ Filter ("a<b>|c? ".toList) :=
  ⟨(Filter_idem_and_no_forbidden ("a<b>|c? ".toList)).1,
   fun h => (Filter_idem_and_no_forbidden ("a<b>|c? ".toList)).2 '<' h
     (by decide)⟩

end M4s
